import Mathlib

/-!
Verification of the GitHub_Manager repository: a shallow embedding of its
state registry (`state.py`), GitHub client (`github_client.py`) and service
layer (`github_service.py`), together with theorems settling the spec's
claims about them.

Numeric conventions: Python ints become `Nat`/`Int`; Python's `round`
(banker's rounding, half to even) is `roundHalfEven`. The float arithmetic
of `compute_sync` is embedded twice: `compute_sync` idealizes it as exact
rational arithmetic over `ℚ`, and `compute_sync_float` models each binary64
operation as correctly rounded (`fl`), which is where the program's tie
behaviour differs from the exact formulas.
-/

/-- Python's `round` on a number with no `ndigits`: nearest integer, ties to
even (banker's rounding). -/
def roundHalfEven (q : ℚ) : ℤ :=
  let f := ⌊q⌋
  let r := q - f
  if r < 1/2 then f
  else if r > 1/2 then f + 1
  else if f % 2 = 0 then f else f + 1

/-- `compute_sync` from `github_service.py` (lines 14-41): returns
`(local_pct, remote_pct, global_pct)` from the presence flags and the two
ahead-commit counts. This version idealizes the float pipeline as exact
rational arithmetic; `compute_sync_float` below models the same code with
each binary64 operation correctly rounded, and the program deviates from
this idealization at tie inputs such as `(1, 39)`. -/
def compute_sync (local_has_git remote_exists : Bool)
    (ahead_local ahead_remote : ℕ) : ℤ × ℤ × ℤ :=
  if !local_has_git && !remote_exists then (0, 0, 0)
  else if local_has_git && !remote_exists then (100, 0, 50)
  else if !local_has_git && remote_exists then (0, 100, 50)
  else
    let total : ℚ := (ahead_local : ℚ) + (ahead_remote : ℚ)
    if total = 0 then (100, 100, 100)
    else
      let localSync := roundHalfEven (100 * (1 - ((ahead_local : ℚ) / total)))
      let remoteSync := roundHalfEven (100 * (1 - ((ahead_remote : ℚ) / total)))
      let globalSync := roundHalfEven (((localSync : ℚ) + (remoteSync : ℚ)) / 2)
      (localSync, remoteSync, globalSync)

/-- The older `compute_sync` from `GithubManagerRich.py` (lines 197-235): the
same presence-flag branches, but in the both-exist case each side's
percentage is the direct proportion `100 * ahead / total`, returned as
unrounded floats (embedded as rationals). -/
def compute_sync_rich (local_exists remote_exists : Bool)
    (ahead_local ahead_remote : ℕ) : ℚ × ℚ × ℚ :=
  if !local_exists && !remote_exists then (0, 0, 0)
  else if local_exists && !remote_exists then (100, 0, (100 + 0) / 2)
  else if !local_exists && remote_exists then (0, 100, (0 + 100) / 2)
  else
    let total : ℚ := (ahead_local : ℚ) + (ahead_remote : ℚ)
    if total = 0 then (100, 100, 100)
    else
      let localSync := 100 * ((ahead_local : ℚ) / total)
      let remoteSync := 100 * ((ahead_remote : ℚ) / total)
      (localSync, remoteSync, (localSync + remoteSync) / 2)

/-- Correctly rounded IEEE binary64 (Python `float`) value of a rational:
round to nearest with a 53-bit significand, ties to even. The exponent is
unbounded, which agrees with IEEE binary64 for the magnitudes this program
computes (no overflow, no subnormals). -/
def fl (q : ℚ) : ℚ :=
  if q = 0 then 0
  else
    let e : ℤ := Int.log 2 |q|
    (roundHalfEven (q / 2 ^ (e - 52))) * 2 ^ (e - 52)

/-- `compute_sync` from `github_service.py` (lines 14-41) with the
both-sides branch's float arithmetic modelled operation by operation:
Python's int/int true division, `1.0 - x`, `100.0 * y`, the int→float
conversion and `x / 2.0` are each correctly rounded binary64 operations
(`fl`); `round` is exact on the double's value (`roundHalfEven`) and `int`
of its integer result is the identity. `compute_sync` above idealizes the
same pipeline as exact rational arithmetic; the two differ at tie inputs
such as `(1, 39)`. -/
def compute_sync_float (local_has_git remote_exists : Bool)
    (ahead_local ahead_remote : ℕ) : ℤ × ℤ × ℤ :=
  if !local_has_git && !remote_exists then (0, 0, 0)
  else if local_has_git && !remote_exists then (100, 0, 50)
  else if !local_has_git && remote_exists then (0, 100, 50)
  else
    let total : ℕ := ahead_local + ahead_remote
    if total = 0 then (100, 100, 100)
    else
      let localSync := roundHalfEven
        (fl (100 * fl (1 - fl ((ahead_local : ℚ) / (total : ℚ)))))
      let remoteSync := roundHalfEven
        (fl (100 * fl (1 - fl ((ahead_remote : ℚ) / (total : ℚ)))))
      let globalSync := roundHalfEven
        (fl (fl ((localSync : ℚ) + (remoteSync : ℚ)) / 2))
      (localSync, remoteSync, globalSync)

/-! ## State model (`state.py`) -/

/-- The `RepoStatus` dataclass from `state.py`. -/
structure RepoStatus where
  name : String
  local_pct : ℤ
  remote_pct : ℤ
  global_pct : ℤ
  delta_commits : String
  delta_lines : ℤ
deriving DecidableEq, Repr

/-- The `SyncJob` dataclass from `state.py`. `started_at` is the clock value
at construction time (`default_factory=time.time`); clock readings are
embedded as rationals. -/
structure SyncJob where
  repo_name : String
  mode : String
  progress : ℚ
  status : String
  started_at : ℚ
deriving DecidableEq, Repr

/-- Python dict lookup on an association list with unique keys. -/
def getAssoc {α : Type} : List (String × α) → String → Option α
  | [], _ => none
  | p :: t, k => if p.1 = k then some p.2 else getAssoc t k

/-- Python dict assignment `d[k] = v`: replace in place if the key is
present, otherwise append at the end (insertion order). -/
def setAssoc {α : Type} : List (String × α) → String → α → List (String × α)
  | [], k, v => [(k, v)]
  | p :: t, k, v => if p.1 = k then (k, v) :: t else p :: setAssoc t k v

/-- Python `d.pop(k, None)`: drop the entry for `k` if present. -/
def popAssoc {α : Type} : List (String × α) → String → List (String × α)
  | [], _ => []
  | p :: t, k => if p.1 = k then t else p :: popAssoc t k

/-- The `Registre` container from `state.py`: the `_repos` and `_jobs` dicts
and the `_last_update` timestamp. (The lock and thread map are operational
concerns outside the claims.) -/
structure Registre where
  repos : List (String × RepoStatus)
  jobs : List (String × SyncJob)
  last_update : ℚ
deriving DecidableEq, Repr

/-- `Registre.update_repos_bulk`: replaces the whole `_repos` dict with one
rebuilt from the given statuses, keyed by name. `now` is `time.time()`. -/
def Registre.update_repos_bulk (r : Registre) (statuses : List RepoStatus)
    (now : ℚ) : Registre :=
  { r with repos := statuses.map (fun s => (s.name, s)), last_update := now }

/-- `Registre.set_job`: stores a freshly constructed `SyncJob` under the repo
name; its `started_at` defaults to the current clock value `now`. -/
def Registre.set_job (r : Registre) (repo mode : String) (progress : ℚ)
    (status : String) (now : ℚ) : Registre :=
  { r with jobs := setAssoc r.jobs repo ⟨repo, mode, progress, status, now⟩,
           last_update := now }

/-- `Registre.clear_job`: removes the job entry for the repo name. -/
def Registre.clear_job (r : Registre) (repo : String) (now : ℚ) : Registre :=
  { r with jobs := popAssoc r.jobs repo, last_update := now }

/-! ## Heap-level view of `Registre.snapshot`

Python dataclass instances are mutable objects on a shared heap;
`snapshot()` (state.py lines 61-67) builds `list(self._repos.values())` — a
fresh top-level list whose elements are the very same `RepoStatus` objects
the `Registre` holds. To talk about that sharing we model addresses
explicitly. -/

/-- Address of a Python object on the heap. -/
abbrev Addr := ℕ

/-- A heap of mutable `RepoStatus` objects: address `i` holds `cells[i]`. -/
structure StatusHeap where
  cells : List RepoStatus
deriving DecidableEq, Repr

/-- Dereference an address. -/
def StatusHeap.read (h : StatusHeap) (a : Addr) : Option RepoStatus :=
  h.cells.get? a

/-- Mutate the object at an address (e.g. assigning a field of a
`RepoStatus` obtained from a snapshot). -/
def StatusHeap.write (h : StatusHeap) (a : Addr) (v : RepoStatus) : StatusHeap :=
  ⟨h.cells.set a v⟩

/-- The `Registre._repos` dict at reference level: names mapped to heap
addresses of `RepoStatus` objects. -/
structure RegistreRefs where
  repoRefs : List (String × Addr)
deriving DecidableEq, Repr

/-- `snapshot().repos` at reference level: `list(self._repos.values())`
copies the list structure but keeps the same element addresses. -/
def snapshotRepoRefs (r : RegistreRefs) : List Addr :=
  r.repoRefs.map (·.2)

/-- The repo-status map a reader observes through the `Registre`: each name
dereferenced on the heap. -/
def observedRepos (h : StatusHeap) (r : RegistreRefs) :
    List (String × Option RepoStatus) :=
  r.repoRefs.map (fun p => (p.1, h.read p.2))

/-! ## Client and service model (`github_client.py`, `github_service.py`) -/

/-- One immediate child directory of `base_path`: its name and whether it
contains a `.git` entry. -/
structure LocalDir where
  name : String
  has_git : Bool
deriving DecidableEq, Repr

/-- `GithubClient.scan_local_dirs` (lines 47-57): every immediate
subdirectory except `.git` itself, whether it is a git repo or not. -/
def scan_local_dirs (dirs : List LocalDir) : List String :=
  (dirs.filter (fun d => d.name ≠ ".git")).map (·.name)

/-- `GithubClient.scan_local_git_repos` (lines 59-66): the scanned local
dirs that contain a `.git` entry. -/
def scan_local_git_repos (dirs : List LocalDir) : List String :=
  (dirs.filter (fun d => d.name ≠ ".git" && d.has_git)).map (·.name)

/-- A log line, tagged with its level (the `logger.info` / `logger.error`
calls; message text is abstracted to the parts the claims mention). -/
inductive LogMsg where
  | info (msg : String)
  | error (msg : String)
deriving DecidableEq, Repr

/-- A normalized remote repo entry: the `{"name": ..., "updated_at": ...}`
dict built by `get_remote_repos`. -/
structure RemoteRepo where
  name : String
  updated_at : String
deriving DecidableEq, Repr

/-- Outcome of the GitHub API call inside `get_remote_repos`: a successful
JSON list payload, an exception (network/HTTP/timeout/JSON parse — the
`except Exception` arm), or a payload that is not a list. -/
inductive RemoteOutcome where
  | success (payload : List RemoteRepo)
  | exc (msg : String)
  | malformed (msg : String)
deriving DecidableEq, Repr

/-- `GithubClient.get_remote_repos` (lines 71-107): on any exception or a
non-list payload it logs an error and returns the EMPTY list (it never
raises); on success it keeps the entries with a non-empty name. -/
def get_remote_repos (outcome : RemoteOutcome) : List RemoteRepo × List LogMsg :=
  match outcome with
  | .success payload =>
      let normalized := payload.filter (fun r => r.name ≠ "")
      (normalized, [.info "api call", .info "repos found"])
  | .exc m => ([], [.info "api call", .error m])
  | .malformed m => ([], [.info "api call", .error m])

/-- The `RepoStatus` built by one iteration of the `refresh_repos` loop
(github_service.py lines 86-120). `ahead` gives the result of
`get_ahead_behind_and_lines` for a repo path, queried only when the repo has
git locally and exists remotely. -/
def refreshStatus (localGit : List String) (ahead : String → ℕ × ℕ × ℕ)
    (remoteNames : List String) (name : String) : RepoStatus :=
  let has_git := localGit.contains name
  let remote_exists := remoteNames.contains name
  let a := if has_git && remote_exists then (ahead name).1 else 0
  let b := if has_git && remote_exists then (ahead name).2.1 else 0
  let lines := if has_git && remote_exists then (ahead name).2.2 else 0
  let pcts := compute_sync has_git remote_exists a b
  { name := name
    local_pct := pcts.1
    remote_pct := pcts.2.1
    global_pct := pcts.2.2
    delta_commits := if has_git && remote_exists then s!"{a} / {b}" else "-"
    delta_lines := if has_git && remote_exists then (lines : ℤ) else 0 }

/-- `GithubService.refresh_repos` (lines 69-123): scans local dirs and git
repos, fetches the remote listing, computes one status per name in
`sorted(set(local) | set(remote))`, and unconditionally replaces the
`Registre`'s repo map via `update_repos_bulk`. Returns the new `Registre`
and the log lines produced. -/
def refresh_repos (reg : Registre) (dirs : List LocalDir)
    (ahead : String → ℕ × ℕ × ℕ) (outcome : RemoteOutcome) (now : ℚ) :
    Registre × List LogMsg :=
  let localDirs := scan_local_dirs dirs
  let localGit := scan_local_git_repos dirs
  let rr := get_remote_repos outcome
  let remoteNames := rr.1.map (·.name)
  let allNames := ((localDirs ++ remoteNames).dedup).insertionSort (· ≤ ·)
  let statuses := allNames.map (refreshStatus localGit ahead remoteNames)
  (reg.update_repos_bulk statuses now, rr.2 ++ [.info "updated"])

/-! ## Import job model (`GithubService.import_missing_repos`) -/

/-- Observable actions of `import_missing_repos`: the `Registre.set_job` /
`Registre.clear_job` calls, the clone attempts, and the final refresh. -/
inductive Event where
  | setJob (repo mode : String) (progress : ℚ) (status : String)
  | clearJob (repo : String)
  | cloneAttempt (repo : String)
  | refreshRun
deriving DecidableEq, Repr

/-- The Python guard `target_repo and name != target_repo` (`None` and the
empty string are falsy). -/
def targetSkips (target : Option String) (name : String) : Bool :=
  match target with
  | none => false
  | some t => t ≠ "" && name ≠ t

/-- Events of one loop iteration of `import_missing_repos`
(github_service.py lines 137-172) for the remote repo `name`. `cloneRc`
gives the exit code of `git clone` for a repo name. -/
def importRepoEvents (localDirs : List String) (target : Option String)
    (cloneRc : String → ℤ) (name : String) : List Event :=
  if targetSkips target name then []
  else if name ∈ localDirs then []
  else
    [.setJob name "import" 0 "running",
     .setJob name "import" (1/5) "running",
     .cloneAttempt name] ++
    (if cloneRc name ≠ 0 then
      [.setJob name "import" 1 "error", .clearJob name]
    else
      [.setJob name "import" (4/5) "running",
       .setJob name "import" 1 "done",
       .clearJob name])

/-- `GithubService.import_missing_repos` (lines 128-176): processes every
remote repo in listing order, then always runs a final `refresh_repos`. -/
def import_missing_repos (remoteNames localDirs : List String)
    (target : Option String) (cloneRc : String → ℤ) : List Event :=
  (remoteNames.flatMap (importRepoEvents localDirs target cloneRc)) ++ [.refreshRun]

/-- `true` iff the event is a `set_job` call for `name` (a job record
creation/update for that repo). -/
def jobEventFor (name : String) : Event → Bool
  | .setJob r _ _ _ => r == name
  | _ => false

/-- `true` iff the event is a clone attempt for `name`. -/
def cloneEventFor (name : String) : Event → Bool
  | .cloneAttempt r => r == name
  | _ => false

-- Basic facts about `roundHalfEven`.

theorem roundHalfEven_intCast (n : ℤ) : roundHalfEven (n : ℚ) = n := by
  unfold roundHalfEven
  simp

theorem roundHalfEven_nonneg {q : ℚ} (h : 0 ≤ q) : 0 ≤ roundHalfEven q := by
  unfold roundHalfEven
  have hf : (0 : ℤ) ≤ ⌊q⌋ := Int.floor_nonneg.mpr h
  dsimp only
  split
  · exact hf
  · split
    · omega
    · split
      · exact hf
      · omega

theorem roundHalfEven_le {q : ℚ} {n : ℤ} (h : q ≤ n) : roundHalfEven q ≤ n := by
  unfold roundHalfEven
  have hf : ⌊q⌋ ≤ n := by
    have := Int.floor_le_floor h
    simpa using this
  dsimp only
  split
  · exact hf
  · rename_i h1
    push_neg at h1
    have hfl : ⌊q⌋ < n := by
      rcases lt_or_eq_of_le hf with hlt | heq
      · exact hlt
      · exfalso
        have hq : (n : ℚ) ≤ q := heq ▸ Int.floor_le q
        have hqn : q = (n : ℚ) := le_antisymm h hq
        rw [hqn] at h1
        rw [Int.floor_intCast] at h1
        linarith
    split
    · omega
    · split
      · omega
      · omega

theorem roundHalfEven_of_fract_lt {q : ℚ} (h : q - ⌊q⌋ < 1/2) :
    roundHalfEven q = ⌊q⌋ := by
  unfold roundHalfEven
  rw [if_pos h]

theorem roundHalfEven_of_fract_gt {q : ℚ} (h : 1/2 < q - ⌊q⌋) :
    roundHalfEven q = ⌊q⌋ + 1 := by
  unfold roundHalfEven
  rw [if_neg (by linarith), if_pos h]

theorem roundHalfEven_of_fract_eq {q : ℚ} (h : q - ⌊q⌋ = 1/2) :
    roundHalfEven q = if ⌊q⌋ % 2 = 0 then ⌊q⌋ else ⌊q⌋ + 1 := by
  unfold roundHalfEven
  rw [if_neg (by linarith), if_neg (by linarith)]

theorem roundHalfEven_eq_floor {q : ℚ} {m : ℤ} (h1 : (m : ℚ) ≤ q)
    (h2 : q < (m : ℚ) + 1/2) : roundHalfEven q = m := by
  have hf : ⌊q⌋ = m := Int.floor_eq_iff.mpr ⟨h1, by linarith⟩
  unfold roundHalfEven
  rw [hf]
  rw [if_pos (by linarith)]

theorem roundHalfEven_eq_ceil {q : ℚ} {m : ℤ} (h1 : (m : ℚ) + 1/2 < q)
    (h2 : q < (m : ℚ) + 1) : roundHalfEven q = m + 1 := by
  have h0 : (m : ℚ) ≤ q := by linarith
  have hf : ⌊q⌋ = m := Int.floor_eq_iff.mpr ⟨h0, by linarith⟩
  unfold roundHalfEven
  rw [hf]
  rw [if_neg (by linarith), if_pos (by linarith)]

theorem roundHalfEven_eq_tie {q : ℚ} {m : ℤ} (h : q = (m : ℚ) + 1/2) :
    roundHalfEven q = if m % 2 = 0 then m else m + 1 := by
  have hf : ⌊q⌋ = m := Int.floor_eq_iff.mpr ⟨by rw [h]; linarith, by rw [h]; linarith⟩
  unfold roundHalfEven
  rw [hf]
  rw [if_neg (by rw [h]; linarith), if_neg (by rw [h]; linarith)]

/-- `Int.log 2` is characterized by its power bracketing. -/
theorem int_log_eq_of_bounds {q : ℚ} {e : ℤ} (h0 : 0 < q)
    (h1 : (2:ℚ)^e ≤ q) (h2 : q < (2:ℚ)^(e+1)) : Int.log 2 q = e := by
  have hlow := Int.zpow_log_le_self (b := 2) (R := ℚ) (by norm_num) h0
  have hhigh := Int.lt_zpow_succ_log_self (b := 2) (R := ℚ) (by norm_num) q
  by_contra hne
  rcases lt_or_gt_of_ne hne with hlt | hgt
  · have hstep : ((2:ℕ):ℚ) ^ (Int.log 2 q + 1) ≤ (2:ℚ)^e := by
      have := zpow_le_zpow_right₀ (a := (2:ℚ)) (by norm_num)
        (show Int.log 2 q + 1 ≤ e by omega)
      simpa using this
    push_cast at hhigh hstep
    linarith
  · have hstep : (2:ℚ)^(e+1) ≤ ((2:ℕ):ℚ) ^ (Int.log 2 q) := by
      have := zpow_le_zpow_right₀ (a := (2:ℚ)) (by norm_num)
        (show e + 1 ≤ Int.log 2 q by omega)
      simpa using this
    push_cast at hlow hstep
    linarith

/-- Unfolding of `fl` on a positive rational once its binade is known. -/
theorem fl_eq_of_bounds {q : ℚ} {e : ℤ} (h0 : 0 < q)
    (h1 : (2:ℚ)^e ≤ q) (h2 : q < (2:ℚ)^(e+1)) :
    fl q = (roundHalfEven (q / 2 ^ (e - 52))) * 2 ^ (e - 52) := by
  unfold fl
  rw [if_neg (ne_of_gt h0), abs_of_pos h0, int_log_eq_of_bounds h0 h1 h2]

/-- Banker's rounding of two rationals summing to 100 yields integers summing
to exactly 100: at a tie the floors sum to 99, so exactly one of them is even. -/
theorem roundHalfEven_complement {p q : ℚ} (h : p + q = 100) :
    roundHalfEven p + roundHalfEven q = 100 := by
  have hp0 : (0:ℚ) ≤ p - ⌊p⌋ := by have := Int.floor_le p; linarith
  have hp1 : p - ⌊p⌋ < 1 := by have := Int.lt_floor_add_one p; linarith
  have hq0 : (0:ℚ) ≤ q - ⌊q⌋ := by have := Int.floor_le q; linarith
  have hq1 : q - ⌊q⌋ < 1 := by have := Int.lt_floor_add_one q; linarith
  have hsum : ((100 - ⌊p⌋ - ⌊q⌋ : ℤ) : ℚ) = (p - ⌊p⌋) + (q - ⌊q⌋) := by
    push_cast
    linarith
  have hk01 : (100 - ⌊p⌋ - ⌊q⌋ : ℤ) = 0 ∨ (100 - ⌊p⌋ - ⌊q⌋ : ℤ) = 1 := by
    have h0 : (0:ℚ) ≤ ((100 - ⌊p⌋ - ⌊q⌋ : ℤ) : ℚ) := by rw [hsum]; linarith
    have h2 : ((100 - ⌊p⌋ - ⌊q⌋ : ℤ) : ℚ) < 2 := by rw [hsum]; linarith
    have h0' : (0:ℤ) ≤ 100 - ⌊p⌋ - ⌊q⌋ := by exact_mod_cast h0
    have h2' : (100 - ⌊p⌋ - ⌊q⌋ : ℤ) < 2 := by exact_mod_cast h2
    omega
  rcases hk01 with hk | hk
  · have hfr : (p - ⌊p⌋) + (q - ⌊q⌋) = 0 := by
      rw [← hsum, hk]
      norm_num
    have hrp : p - ⌊p⌋ = 0 := by linarith
    have hrq : q - ⌊q⌋ = 0 := by linarith
    rw [roundHalfEven_of_fract_lt (by rw [hrp]; norm_num),
        roundHalfEven_of_fract_lt (by rw [hrq]; norm_num)]
    omega
  · have hfr : (p - ⌊p⌋) + (q - ⌊q⌋) = 1 := by
      rw [← hsum, hk]
      norm_num
    have hmn : ⌊p⌋ + ⌊q⌋ = 99 := by omega
    rcases lt_trichotomy (p - ⌊p⌋) (1/2 : ℚ) with hlt | heq | hgt
    · have hgt' : 1/2 < q - ⌊q⌋ := by linarith
      rw [roundHalfEven_of_fract_lt hlt, roundHalfEven_of_fract_gt hgt']
      omega
    · have heq' : q - ⌊q⌋ = 1/2 := by linarith
      rw [roundHalfEven_of_fract_eq heq, roundHalfEven_of_fract_eq heq']
      split_ifs <;> omega
    · have hlt' : q - ⌊q⌋ < 1/2 := by linarith
      rw [roundHalfEven_of_fract_gt hgt, roundHalfEven_of_fract_lt hlt']
      omega

/-- In the both-sides-present, positive-total case `compute_sync` takes its
final branch. -/
theorem compute_sync_both_pos {a b : ℕ} (h : 0 < a + b) :
    compute_sync true true a b =
      (roundHalfEven (100 * (1 - (a : ℚ) / ((a : ℚ) + (b : ℚ)))),
       roundHalfEven (100 * (1 - (b : ℚ) / ((a : ℚ) + (b : ℚ)))),
       roundHalfEven
         (((roundHalfEven (100 * (1 - (a : ℚ) / ((a : ℚ) + (b : ℚ)))) : ℚ)
           + (roundHalfEven (100 * (1 - (b : ℚ) / ((a : ℚ) + (b : ℚ)))) : ℚ)) / 2)) := by
  have ht : ((a : ℚ) + (b : ℚ)) ≠ 0 := by
    have h' : (0 : ℚ) < (a : ℚ) + (b : ℚ) := by exact_mod_cast h
    exact ne_of_gt h'
  unfold compute_sync
  simp [ht]

/-- In the exact-rational idealization, the both-sides case of
`compute_sync` is `(100, 100, 100)` for `a + b = 0` and otherwise the
rounded proportion-of-total-divergence triple, with the global percentage
the rounded mean of the two rounded side percentages. (The float program
deviates from this exact formula at tie inputs such as `(1, 39)`.) -/
theorem compute_sync_both_sides_spec (a b : ℕ) :
    compute_sync true true a b =
      if a + b = 0 then (100, 100, 100)
      else
        (roundHalfEven (100 * (1 - (a : ℚ) / ((a : ℚ) + (b : ℚ)))),
         roundHalfEven (100 * (1 - (b : ℚ) / ((a : ℚ) + (b : ℚ)))),
         roundHalfEven
           (((roundHalfEven (100 * (1 - (a : ℚ) / ((a : ℚ) + (b : ℚ)))) : ℚ)
             + (roundHalfEven (100 * (1 - (b : ℚ) / ((a : ℚ) + (b : ℚ)))) : ℚ)) / 2)) := by
  by_cases h : a + b = 0
  · have ha : a = 0 := by omega
    have hb : b = 0 := by omega
    subst ha
    subst hb
    norm_num [compute_sync]
  · rw [if_neg h]
    exact compute_sync_both_pos (Nat.pos_of_ne_zero h)

/-- C3: on every input `compute_sync` returns three integers in `[0, 100]`,
and the global percentage is always the rounded arithmetic mean of the local
and remote percentages. -/
theorem compute_sync_invariant (lg re : Bool) (a b : ℕ) :
    (0 ≤ (compute_sync lg re a b).1 ∧ (compute_sync lg re a b).1 ≤ 100) ∧
    (0 ≤ (compute_sync lg re a b).2.1 ∧ (compute_sync lg re a b).2.1 ≤ 100) ∧
    (0 ≤ (compute_sync lg re a b).2.2 ∧ (compute_sync lg re a b).2.2 ≤ 100) ∧
    (compute_sync lg re a b).2.2 =
      roundHalfEven
        ((((compute_sync lg re a b).1 : ℚ) + ((compute_sync lg re a b).2.1 : ℚ)) / 2) := by
  cases lg <;> cases re
  · norm_num [compute_sync, roundHalfEven]
  · norm_num [compute_sync, roundHalfEven]
  · norm_num [compute_sync, roundHalfEven]
  · by_cases h : a + b = 0
    · have ha : a = 0 := by omega
      have hb : b = 0 := by omega
      subst ha
      subst hb
      norm_num [compute_sync, roundHalfEven]
    · rw [compute_sync_both_pos (Nat.pos_of_ne_zero h)]
      have ht : (0 : ℚ) < (a : ℚ) + (b : ℚ) := by
        exact_mod_cast Nat.pos_of_ne_zero h
      have hap : (0 : ℚ) ≤ 100 * (1 - (a : ℚ) / ((a : ℚ) + (b : ℚ))) := by
        have hdiv : (a : ℚ) / ((a : ℚ) + (b : ℚ)) ≤ 1 := by
          rw [div_le_one ht]
          have : (0 : ℚ) ≤ (b : ℚ) := by positivity
          linarith
        linarith
      have hap' : 100 * (1 - (a : ℚ) / ((a : ℚ) + (b : ℚ))) ≤ ((100 : ℤ) : ℚ) := by
        have hdiv : (0 : ℚ) ≤ (a : ℚ) / ((a : ℚ) + (b : ℚ)) := by positivity
        push_cast
        linarith
      have hbp : (0 : ℚ) ≤ 100 * (1 - (b : ℚ) / ((a : ℚ) + (b : ℚ))) := by
        have hdiv : (b : ℚ) / ((a : ℚ) + (b : ℚ)) ≤ 1 := by
          rw [div_le_one ht]
          have : (0 : ℚ) ≤ (a : ℚ) := by positivity
          linarith
        linarith
      have hbp' : 100 * (1 - (b : ℚ) / ((a : ℚ) + (b : ℚ))) ≤ ((100 : ℤ) : ℚ) := by
        have hdiv : (0 : ℚ) ≤ (b : ℚ) / ((a : ℚ) + (b : ℚ)) := by positivity
        push_cast
        linarith
      have hl0 := roundHalfEven_nonneg hap
      have hl1 := roundHalfEven_le hap'
      have hr0 := roundHalfEven_nonneg hbp
      have hr1 := roundHalfEven_le hbp'
      refine ⟨⟨hl0, hl1⟩, ⟨hr0, hr1⟩, ⟨?_, ?_⟩, rfl⟩
      · apply roundHalfEven_nonneg
        have c0 : (0 : ℚ) ≤ ((roundHalfEven (100 * (1 - (a : ℚ) / ((a : ℚ) + (b : ℚ)))) : ℚ)) := by
          exact_mod_cast hl0
        have c1 : (0 : ℚ) ≤ ((roundHalfEven (100 * (1 - (b : ℚ) / ((a : ℚ) + (b : ℚ)))) : ℚ)) := by
          exact_mod_cast hr0
        linarith
      · apply roundHalfEven_le
        have c0 : ((roundHalfEven (100 * (1 - (a : ℚ) / ((a : ℚ) + (b : ℚ)))) : ℚ)) ≤ 100 := by
          exact_mod_cast hl1
        have c1 : ((roundHalfEven (100 * (1 - (b : ℚ) / ((a : ℚ) + (b : ℚ)))) : ℚ)) ≤ 100 := by
          exact_mod_cast hr1
        push_cast
        linarith

/-- C6: with exactly one side present (or neither), `compute_sync` ignores
the ahead counts and returns the fixed triples `(100,0,50)`, `(0,100,50)`
and `(0,0,0)`. -/
theorem compute_sync_one_side (a b : ℕ) :
    compute_sync true false a b = (100, 0, 50) ∧
    compute_sync false true a b = (0, 100, 50) ∧
    compute_sync false false a b = (0, 0, 0) :=
  ⟨rfl, rfl, rfl⟩

/-- C8: the `github_service.py` version of `compute_sync` and the older
`GithubManagerRich.py` version disagree on an input with both sides present
and a positive total of unique commits. -/
theorem compute_sync_versions_inequivalent :
    ∃ a b : ℕ, 0 < a + b ∧
      (((compute_sync true true a b).1 : ℚ), ((compute_sync true true a b).2.1 : ℚ),
        ((compute_sync true true a b).2.2 : ℚ)) ≠ compute_sync_rich true true a b := by
  refine ⟨1, 0, by norm_num, ?_⟩
  norm_num [compute_sync, compute_sync_rich, roundHalfEven, Prod.ext_iff]

/-- C9 (amended): in the exact-rational idealization of the pipeline
(`compute_sync`), whenever both sides exist and the histories diverge at all
the two side percentages sum to exactly 100 and the global percentage is
exactly 50. The float program itself can break the sum law at tie inputs:
at `(1, 39)` it returns 98 + 3 = 101 (its global percentage is still 50
there). -/
theorem compute_sync_diverged_sum (a b : ℕ) (h : 0 < a + b) :
    (compute_sync true true a b).1 + (compute_sync true true a b).2.1 = 100 ∧
    (compute_sync true true a b).2.2 = 50 := by
  rw [compute_sync_both_pos h]
  have ht : (0 : ℚ) < (a : ℚ) + (b : ℚ) := by exact_mod_cast h
  have ht' : ((a : ℚ) + (b : ℚ)) ≠ 0 := ne_of_gt ht
  have hsum : (100 * (1 - (a : ℚ) / ((a : ℚ) + (b : ℚ))))
      + (100 * (1 - (b : ℚ) / ((a : ℚ) + (b : ℚ)))) = 100 := by
    field_simp
    ring
  have h1 := roundHalfEven_complement hsum
  refine ⟨h1, ?_⟩
  have h2 : ((roundHalfEven (100 * (1 - (a : ℚ) / ((a : ℚ) + (b : ℚ)))) : ℚ)
      + (roundHalfEven (100 * (1 - (b : ℚ) / ((a : ℚ) + (b : ℚ)))) : ℚ)) / 2 = 50 := by
    have h1' : ((roundHalfEven (100 * (1 - (a : ℚ) / ((a : ℚ) + (b : ℚ)))) : ℚ)
        + (roundHalfEven (100 * (1 - (b : ℚ) / ((a : ℚ) + (b : ℚ)))) : ℚ)) = 100 := by
      exact_mod_cast congrArg (fun z : ℤ => (z : ℚ)) h1
    linarith
  rw [h2]
  norm_num [roundHalfEven]

/-- Witness for C9 at `(ahead_local, ahead_remote) = (1, 2)`. -/
theorem compute_sync_diverged_sum_witness :
    (0 < 1 + 2) ∧
    ((compute_sync true true 1 2).1 + (compute_sync true true 1 2).2.1 = 100 ∧
      (compute_sync true true 1 2).2.2 = 50) :=
  ⟨by norm_num, compute_sync_diverged_sum 1 2 (by norm_num)⟩


/-! ## Theorems about the state registry and the service operations -/

theorem getAssoc_setAssoc {α : Type} (l : List (String × α)) (k : String) (v : α) :
    getAssoc (setAssoc l k v) k = some v := by
  induction l with
  | nil => simp [setAssoc, getAssoc]
  | cons p t ih =>
    by_cases h : p.1 = k
    · simp [setAssoc, getAssoc, h]
    · simp [setAssoc, getAssoc, h, ih]

/-- Registre for the C7 counterexample: one running job for "alpha" that
started at clock value 1. -/
def c7Reg : Registre :=
  { repos := [],
    jobs := [("alpha", ⟨"alpha", "import", 0, "running", 1⟩)],
    last_update := 1 }

/-- C7 counterexample: a subsequent `set_job` for the same name at clock
value 2 resets the job's `started_at` from 1 to 2 — the start timestamp does
not survive the progress checkpoint. -/
theorem set_job_resets_started_at :
    (getAssoc ((c7Reg.set_job "alpha" "import" (1/5) "running" 2).jobs) "alpha").map
        SyncJob.started_at
      ≠ (getAssoc c7Reg.jobs "alpha").map SyncJob.started_at := by
  norm_num [c7Reg, Registre.set_job, setAssoc, getAssoc]

/-- C7 amended: `set_job` replaces the whole job record — afterwards the
entry for the repo is a fresh `SyncJob` whose mode, progress and status come
from the arguments and whose `started_at` is the current clock value, not
the one from when the job began. -/
theorem set_job_replaces_record (r : Registre) (repo mode st : String)
    (progress now : ℚ) :
    getAssoc ((r.set_job repo mode progress st now).jobs) repo
      = some ⟨repo, mode, progress, st, now⟩ := by
  unfold Registre.set_job
  exact getAssoc_setAssoc r.jobs repo _

/-- Heap for the C4 scenario: one repo "alpha" whose status object lives at
address 0. -/
def c4Heap : StatusHeap :=
  ⟨[{ name := "alpha", local_pct := 10, remote_pct := 20, global_pct := 15,
      delta_commits := "-", delta_lines := 0 }]⟩

/-- The Registre's repo dict for the C4 scenario. -/
def c4Refs : RegistreRefs := ⟨[("alpha", 0)]⟩

/-- C4: `snapshot()` is not a deep copy. The snapshot's element is the very
address the Registre holds, and writing the `RepoStatus` at that address
(as a caller mutating a record from the snapshot does) changes the
repo-status map observed through the Registre. -/
theorem snapshot_shares_mutable_state :
    ∃ a ∈ snapshotRepoRefs c4Refs,
      observedRepos
          (c4Heap.write a
            { name := "alpha", local_pct := 99, remote_pct := 20, global_pct := 15,
              delta_commits := "-", delta_lines := 0 }) c4Refs
        ≠ observedRepos c4Heap c4Refs := by
  refine ⟨0, by simp [snapshotRepoRefs, c4Refs], ?_⟩
  simp [observedRepos, StatusHeap.write, StatusHeap.read, c4Heap, c4Refs]

/-- C5: during import, a candidate whose clone fails gets its job set to
status "error" at progress 1.0 and then cleared; the loop continues with the
remaining candidates, and the final refresh still runs after all of them. -/
theorem import_clone_failure_continues (pre post : List String) (name : String)
    (localDirs : List String) (target : Option String) (cloneRc : String → ℤ)
    (hfail : cloneRc name ≠ 0) (hskip : targetSkips target name = false)
    (hlocal : name ∉ localDirs) :
    import_missing_repos (pre ++ name :: post) localDirs target cloneRc =
      (pre.flatMap (importRepoEvents localDirs target cloneRc)) ++
      ([Event.setJob name "import" 0 "running",
        Event.setJob name "import" (1/5) "running",
        Event.cloneAttempt name,
        Event.setJob name "import" 1 "error",
        Event.clearJob name] ++
       ((post.flatMap (importRepoEvents localDirs target cloneRc)) ++
        [Event.refreshRun])) := by
  unfold import_missing_repos
  rw [List.flatMap_append, List.flatMap_cons]
  have h1 : importRepoEvents localDirs target cloneRc name =
      [Event.setJob name "import" 0 "running",
       Event.setJob name "import" (1/5) "running",
       Event.cloneAttempt name,
       Event.setJob name "import" 1 "error",
       Event.clearJob name] := by
    simp [importRepoEvents, hskip, hlocal, hfail]
  rw [h1]
  simp [List.append_assoc]

/-- Witness for C5: remote listing `["alpha", "delta", "echo"]`, "alpha"
already present locally, clone of "delta" fails with exit code 1. -/
theorem import_clone_failure_continues_witness :
    ((fun n => if n = "delta" then (1 : ℤ) else 0) "delta" ≠ 0) ∧
    targetSkips none "delta" = false ∧
    "delta" ∉ ["alpha"] ∧
    import_missing_repos (["alpha"] ++ "delta" :: ["echo"]) ["alpha"] none
        (fun n => if n = "delta" then (1 : ℤ) else 0) =
      (["alpha"].flatMap (importRepoEvents ["alpha"] none
          (fun n => if n = "delta" then (1 : ℤ) else 0))) ++
      ([Event.setJob "delta" "import" 0 "running",
        Event.setJob "delta" "import" (1/5) "running",
        Event.cloneAttempt "delta",
        Event.setJob "delta" "import" 1 "error",
        Event.clearJob "delta"] ++
       ((["echo"].flatMap (importRepoEvents ["alpha"] none
           (fun n => if n = "delta" then (1 : ℤ) else 0))) ++
        [Event.refreshRun])) :=
  ⟨by simp, rfl, by simp,
   import_clone_failure_continues ["alpha"] ["echo"] "delta" ["alpha"] none
     (fun n => if n = "delta" then (1 : ℤ) else 0) (by simp) rfl (by simp)⟩

/-- If `r` can only equal `name` when `name` is among the scanned local
dirs, then iteration `r` of the import loop emits no clone attempt and no
job event for `name`. -/
theorem importRepoEvents_no_mention (localDirs : List String)
    (target : Option String) (cloneRc : String → ℤ) (name r : String)
    (h : r = name → name ∈ localDirs) :
    (importRepoEvents localDirs target cloneRc r).all
      (fun e => !(cloneEventFor name e) && !(jobEventFor name e)) = true := by
  unfold importRepoEvents
  by_cases hs : targetSkips target r = true
  · simp [hs]
  · by_cases hm : r ∈ localDirs
    · simp [hs, hm]
    · have hr : r ≠ name := by
        intro he
        exact hm (by rw [he]; exact h he)
      by_cases hc : cloneRc r ≠ 0 <;>
        simp [hs, hm, hc, cloneEventFor, jobEventFor, hr]

/-- C10: a remote project whose name matches any existing local directory —
even one without `.git` — is skipped by `import_missing_repos`: no clone
attempt and no job record is ever made for that name. -/
theorem import_skips_existing_local_dir (dirs : List LocalDir)
    (remoteNames : List String) (target : Option String) (cloneRc : String → ℤ)
    (name : String) (hdir : LocalDir.mk name false ∈ dirs)
    (hname : name ≠ ".git") :
    (import_missing_repos remoteNames (scan_local_dirs dirs) target cloneRc).all
      (fun e => !(cloneEventFor name e) && !(jobEventFor name e)) = true := by
  have hmem : name ∈ scan_local_dirs dirs := by
    unfold scan_local_dirs
    refine List.mem_map.mpr ⟨⟨name, false⟩, ?_, rfl⟩
    refine List.mem_filter.mpr ⟨hdir, by simp [hname]⟩
  unfold import_missing_repos
  rw [List.all_eq_true]
  intro e he
  rw [List.mem_append] at he
  rcases he with he | he
  · obtain ⟨r, hrmem, hre⟩ := List.mem_flatMap.mp he
    have hall := importRepoEvents_no_mention (scan_local_dirs dirs) target cloneRc
      name r (fun _ => hmem)
    exact List.all_eq_true.mp hall e hre
  · rw [List.mem_singleton] at he
    subst he
    rfl

/-- Witness for C10: remote repo "delta" matches a local directory "delta"
that has no `.git`; the import emits no clone attempt and no job for it. -/
theorem import_skips_existing_local_dir_witness :
    (LocalDir.mk "delta" false ∈ [LocalDir.mk "delta" false]) ∧
    ("delta" : String) ≠ ".git" ∧
    (import_missing_repos ["delta"] (scan_local_dirs [LocalDir.mk "delta" false])
        none (fun _ => 0)).all
      (fun e => !(cloneEventFor "delta" e) && !(jobEventFor "delta" e)) = true :=
  ⟨List.mem_singleton.mpr rfl, by simp,
   import_skips_existing_local_dir [LocalDir.mk "delta" false] ["delta"] none
     (fun _ => 0) "delta" (List.mem_singleton.mpr rfl) (by simp)⟩

/-- Registre for the C1 counterexample: it already knows one (remote-only)
repo "alpha". -/
def c1Reg : Registre :=
  { repos := [("alpha",
      { name := "alpha", local_pct := 0, remote_pct := 100, global_pct := 50,
        delta_commits := "-", delta_lines := 0 })],
    jobs := [], last_update := 0 }

/-- C1 counterexample: with no local dirs and a failing remote listing,
`refresh_repos` still rewrites the repo map — the prior entry is lost — even
though the failure is logged. -/
theorem refresh_failure_mutates_registry :
    (refresh_repos c1Reg [] (fun _ => (0, 0, 0)) (.exc "network down") 1).1.repos
      ≠ c1Reg.repos ∧
    LogMsg.error "network down"
      ∈ (refresh_repos c1Reg [] (fun _ => (0, 0, 0)) (.exc "network down") 1).2 := by
  constructor
  · simp [refresh_repos, get_remote_repos, Registre.update_repos_bulk,
      scan_local_dirs, scan_local_git_repos, c1Reg, List.insertionSort]
  · simp [refresh_repos, get_remote_repos]

/-- C1 amended: when the remote listing call fails, `get_remote_repos` logs
the error and returns the empty list, and `refresh_repos` proceeds anyway:
it replaces the Registre's repo map with statuses computed as if no remote
repos existed (jobs are untouched). Stale remote-derived state is wiped, not
preserved. -/
theorem refresh_failure_proceeds_with_empty_remote (reg : Registre)
    (dirs : List LocalDir) (ahead : String → ℕ × ℕ × ℕ) (msg : String) (now : ℚ) :
    (refresh_repos reg dirs ahead (.exc msg) now).1.repos =
      (((scan_local_dirs dirs).dedup).insertionSort (· ≤ ·)).map
        (fun n => (n, refreshStatus (scan_local_git_repos dirs) ahead [] n)) ∧
    (refresh_repos reg dirs ahead (.exc msg) now).1.jobs = reg.jobs ∧
    LogMsg.error msg ∈ (refresh_repos reg dirs ahead (.exc msg) now).2 := by
  refine ⟨?_, rfl, by simp [refresh_repos, get_remote_repos]⟩
  unfold refresh_repos get_remote_repos Registre.update_repos_bulk
  simp only [List.map_nil, List.append_nil, List.map_map]
  refine List.map_congr_left (fun n _ => ?_)
  rfl

/-- The float pipeline evaluated at the tie input `(1, 39)`: the program
returns `(98, 3, 50)` (CPython: `1 - 39/40` carries rounding noise that
lifts `100.0 * 0.025000000000000022` strictly above 2.5). -/
theorem compute_sync_float_eval_one_thirtynine :
    compute_sync_float true true 1 39 = (98, 3, 50) := by
  have e1 : fl ((1:ℚ)/40) = 3602879701896397/144115188075855872 := by
    rw [fl_eq_of_bounds (e := -6) (by norm_num) (by norm_num) (by norm_num)]
    rw [show ((2:ℚ) ^ ((-6:ℤ) - 52)) = 1/288230376151711744 from by norm_num]
    rw [roundHalfEven_eq_ceil (m := 7205759403792793) (by norm_num) (by norm_num)]
    norm_num
  have e2 : fl ((140512308373959475:ℚ)/144115188075855872)
      = 8782019273372467/9007199254740992 := by
    rw [fl_eq_of_bounds (e := -1) (by norm_num) (by norm_num) (by norm_num)]
    rw [show ((2:ℚ) ^ ((-1:ℤ) - 52)) = 1/9007199254740992 from by norm_num]
    rw [roundHalfEven_eq_floor (m := 8782019273372467) (by norm_num) (by norm_num)]
    norm_num
  have e3 : fl ((219550481834311675:ℚ)/2251799813685248) = 195/2 := by
    rw [fl_eq_of_bounds (e := 6) (by norm_num) (by norm_num) (by norm_num)]
    rw [show ((2:ℚ) ^ ((6:ℤ) - 52)) = 1/70368744177664 from by norm_num]
    rw [roundHalfEven_eq_ceil (m := 6860952557322239) (by norm_num) (by norm_num)]
    norm_num
  have e4 : roundHalfEven ((195:ℚ)/2) = 98 := by
    rw [roundHalfEven_eq_tie (m := 97) (by norm_num)]
    norm_num
  have d1 : fl ((39:ℚ)/40) = 8782019273372467/9007199254740992 := by
    rw [fl_eq_of_bounds (e := -1) (by norm_num) (by norm_num) (by norm_num)]
    rw [show ((2:ℚ) ^ ((-1:ℤ) - 52)) = 1/9007199254740992 from by norm_num]
    rw [roundHalfEven_eq_floor (m := 8782019273372467) (by norm_num) (by norm_num)]
    norm_num
  have d2 : fl ((225179981368525:ℚ)/9007199254740992)
      = 225179981368525/9007199254740992 := by
    rw [fl_eq_of_bounds (e := -6) (by norm_num) (by norm_num) (by norm_num)]
    rw [show ((2:ℚ) ^ ((-6:ℤ) - 52)) = 1/288230376151711744 from by norm_num]
    rw [roundHalfEven_eq_floor (m := 7205759403792800) (by norm_num) (by norm_num)]
    norm_num
  have d3 : fl ((5629499534213125:ℚ)/2251799813685248)
      = 5629499534213125/2251799813685248 := by
    rw [fl_eq_of_bounds (e := 1) (by norm_num) (by norm_num) (by norm_num)]
    rw [show ((2:ℚ) ^ ((1:ℤ) - 52)) = 1/2251799813685248 from by norm_num]
    rw [roundHalfEven_eq_floor (m := 5629499534213125) (by norm_num) (by norm_num)]
    norm_num
  have d4 : roundHalfEven ((5629499534213125:ℚ)/2251799813685248) = 3 := by
    rw [roundHalfEven_eq_ceil (m := 2) (by norm_num) (by norm_num)]
    norm_num
  have g1 : fl ((101:ℚ)) = 101 := by
    rw [fl_eq_of_bounds (e := 6) (by norm_num) (by norm_num) (by norm_num)]
    rw [show ((2:ℚ) ^ ((6:ℤ) - 52)) = 1/70368744177664 from by norm_num]
    rw [roundHalfEven_eq_floor (m := 7107243161944064) (by norm_num) (by norm_num)]
    norm_num
  have g2 : fl ((101:ℚ)/2) = 101/2 := by
    rw [fl_eq_of_bounds (e := 5) (by norm_num) (by norm_num) (by norm_num)]
    rw [show ((2:ℚ) ^ ((5:ℤ) - 52)) = 1/140737488355328 from by norm_num]
    rw [roundHalfEven_eq_floor (m := 7107243161944064) (by norm_num) (by norm_num)]
    norm_num
  have g3 : roundHalfEven ((101:ℚ)/2) = 50 := by
    rw [roundHalfEven_eq_tie (m := 50) (by norm_num)]
    norm_num
  unfold compute_sync_float
  norm_num [e1, e2, e3, e4, d1, d2, d3, d4, g1, g2, g3]

/-- C2 (amended): when both sides exist, `compute_sync(True, True, a, b)`
returns `(100, 100, 100)` for `a + b = 0`, and otherwise the
proportion-of-total-divergence formula with every float operation correctly
rounded to binary64: `local_pct = round(fl(100 · fl(1 − fl(a/total))))`,
symmetrically for `remote_pct`, and `global_pct = round` of the
correctly-rounded mean of the two; at tie inputs this differs from the
exact-arithmetic formula (at `(1, 39)` the program returns `remote_pct` 3
where exact rounding gives 2). -/
theorem compute_sync_float_formula (a b : ℕ) :
    compute_sync_float true true a b =
      if a + b = 0 then (100, 100, 100)
      else
        (roundHalfEven (fl (100 * fl (1 - fl ((a : ℚ) / ((a : ℚ) + (b : ℚ)))))),
         roundHalfEven (fl (100 * fl (1 - fl ((b : ℚ) / ((a : ℚ) + (b : ℚ)))))),
         roundHalfEven (fl (fl
           (((roundHalfEven (fl (100 * fl (1 - fl ((a : ℚ) / ((a : ℚ) + (b : ℚ))))))) : ℚ)
            + ((roundHalfEven (fl (100 * fl (1 - fl ((b : ℚ) / ((a : ℚ) + (b : ℚ))))))) : ℚ))
           / 2))) := by
  by_cases h : a + b = 0
  · have ha : a = 0 := by omega
    have hb : b = 0 := by omega
    subst ha
    subst hb
    norm_num [compute_sync_float]
  · rw [if_neg h]
    unfold compute_sync_float
    have hc : ((a + b : ℕ) : ℚ) = (a : ℚ) + (b : ℚ) := by push_cast; ring
    simp [h, hc]

/-- C2 counterexample: at `(1, 39)` the program's float pipeline returns
`remote_pct = 3`, while the claim's exact formula gives
`round(100 · (1 − 39/40)) = round(2.5) = 2`. -/
theorem compute_sync_float_tie_counterexample :
    compute_sync_float true true 1 39 = (98, 3, 50) ∧
    roundHalfEven (100 * (1 - (39 : ℚ) / ((1 : ℚ) + 39))) = 2 ∧
    (compute_sync_float true true 1 39).2.1
      ≠ roundHalfEven (100 * (1 - (39 : ℚ) / ((1 : ℚ) + 39))) := by
  have hexact : roundHalfEven (100 * (1 - (39 : ℚ) / ((1 : ℚ) + 39))) = 2 := by
    rw [roundHalfEven_eq_tie (m := 2) (by norm_num)]
    norm_num
  refine ⟨compute_sync_float_eval_one_thirtynine, hexact, ?_⟩
  rw [compute_sync_float_eval_one_thirtynine, hexact]
  norm_num

/-- C9 counterexample: at the diverged input `(1, 39)` the program returns
`local_pct + remote_pct = 98 + 3 = 101 ≠ 100`: float noise pushes the
remote-side value strictly above the 2.5 tie, so it rounds to 3 while the
local side's exact 97.5 tie rounds up to 98. -/
theorem compute_sync_float_sum_counterexample :
    0 < 1 + 39 ∧
    (compute_sync_float true true 1 39).1
      + (compute_sync_float true true 1 39).2.1 = 101 ∧
    ¬((compute_sync_float true true 1 39).1
      + (compute_sync_float true true 1 39).2.1 = 100) := by
  refine ⟨by norm_num, ?_, ?_⟩ <;>
    rw [compute_sync_float_eval_one_thirtynine] <;> norm_num
